import Mathlib

/-!
Verification of the profit-log analysis core of the torn-helper repository.

The definitions below are a shallow embedding of the TypeScript analyzer
(`analyzeProfitForDays`, `processDailyProfits`, `extractAmount`,
`isIncomeTransaction`, `isNeutralTransaction`, `isBazaarTransaction`,
`parseBazaarTransaction`, `parseItemQuantity`, `getItemName`,
`calculateBazaarAnalytics`).  Conventions of the embedding:

* JavaScript numbers holding money amounts are embedded as `Int`; the only
  fractional values produced by the code are unit prices and averages, which
  are embedded as `Rat` (the concrete data exercised here stays exact; the
  JS `x / 0 = Infinity` case is outside `Rat` and is noted where relevant).
* `entry.data` is an open object in JS; the embedding gives it one optional
  field per field name the analyzer ever reads.
* JS string operations (`toLowerCase`, `includes`, `trim`, regular
  expression matching) are modelled over `List Char` for ASCII data; the
  regular expressions of `parseBazaarTransaction` are reimplemented as
  explicit backtracking scanners with the same leftmost / lazy-group /
  greedy-digits semantics as the JS engine on newline-free titles.
* `Date.toISOString().split('T')[0]` applied to an epoch-seconds timestamp
  is determined by (and injective in) the UTC day number
  `timestamp / 86400`, so day keys are embedded as that `Int`; the run's
  "today" key is a parameter.
* JS `Map` (insertion-ordered) is embedded as an association list with
  append-on-miss, and `Array.prototype.sort` (stable) as a stable
  insertion sort.
* The analyzer's console logging and its diagnostic accumulators
  (`allTransactionPatterns`, `unknownTransactions`, `analysisIssues`,
  `unknownItemIds`) do not feed the returned `DailyProfit[]` and are not
  embedded; `getItemName`'s recording of unknown ids is likewise a
  diagnostic side effect dropped here.
-/

namespace TornHelper

/-- ASCII lower-casing of one character, as done by `toLowerCase` on the
ASCII titles handled by the analyzer. -/
def lcChar (c : Char) : Char :=
  if 65 ≤ c.toNat ∧ c.toNat ≤ 90 then Char.ofNat (c.toNat + 32) else c

/-- `title.toLowerCase()` on a character list. -/
def lowerL (l : List Char) : List Char := l.map lcChar

/-- JS `String.prototype.includes`: `pat` occurs as a contiguous substring. -/
def isSubL (pat : List Char) : List Char → Bool
  | [] => pat.isEmpty
  | c :: rest => pat.isPrefixOf (c :: rest) || isSubL pat rest

/-- JS whitespace class restricted to ASCII (space, tab, CR, LF). -/
def isSpaceChar (c : Char) : Bool := c.isWhitespace

/-- JS `String.prototype.trim` (ASCII whitespace). -/
def trimL (l : List Char) : List Char :=
  ((l.dropWhile isSpaceChar).reverse.dropWhile isSpaceChar).reverse

/-- `parseInt(ds, 10)` on a nonempty all-digit string. -/
def digitsToNat (l : List Char) : Nat :=
  l.foldl (fun n c => 10 * n + (c.toNat - 48)) 0

/-- One element of `data.items` (`{id, qty}`). -/
structure BItem where
  id : Option Nat
  qty : Option Int
deriving DecidableEq

/-- The fields of `entry.data` the analyzer reads.  All are optional: a JS
object simply lacks the ones not sent by the API. -/
structure LogData where
  cost_total : Option Int := none
  money_gained : Option Int := none
  money_mugged : Option Int := none
  bet_amount : Option Int := none
  bet : Option Int := none
  withdrawn : Option Int := none
  cost : Option Int := none
  money : Option Int := none
  won_amount : Option Int := none
  pot : Option Int := none
  credits : Option Int := none
  pay : Option Int := none
  rent : Option Int := none
  upkeep_paid : Option Int := none
  donated : Option Int := none
  bounty_reward : Option Int := none
  deposited : Option Int := none
  amount : Option Int := none
  fee : Option Int := none
  value : Option Int := none
  items : List BItem := []
  buyer : Option String := none
  seller : Option String := none
  cost_each : Option Int := none
deriving DecidableEq

/-- `entry.details`. -/
structure LogDetails where
  title : String
  category : String
deriving DecidableEq

/-- `entry.params` (the color hint). -/
structure LogParams where
  color : Option String := none
deriving DecidableEq

/-- One log entry as consumed by the analyzer. -/
structure LogEntry where
  id : String
  timestamp : Nat
  details : LogDetails
  data : LogData := {}
  params : LogParams := {}
deriving DecidableEq

/-- `if (data.f && data.f > 0) return data.f;` — one step of the early-return
cascade of `extractAmount`: a present, strictly positive field wins,
otherwise the rest of the cascade `k` is used. -/
def posOr (o : Option Int) (k : Int) : Int :=
  match o with
  | some v => if 0 < v then v else k
  | none => k

/-- `extractAmount` (part_005 lines 956-994): the fixed cascade of candidate
amount fields, in source order, returning 0 when none is present and
strictly positive. -/
def extractAmount (log : LogEntry) : Int :=
  let d := log.data
  posOr d.cost_total <|
  posOr d.money_gained <|
  posOr d.money_mugged <|
  posOr d.bet_amount <|
  posOr d.bet <|
  posOr d.withdrawn <|
  posOr d.cost <|
  posOr d.money <|
  posOr d.won_amount <|
  posOr d.pot <|
  posOr d.credits <|
  posOr d.pay <|
  posOr d.rent <|
  posOr d.upkeep_paid <|
  posOr d.donated <|
  posOr d.bounty_reward <|
  posOr d.deposited <|
  posOr d.amount <|
  posOr d.fee <|
  posOr d.value 0

/-- The priority list of candidate amount fields, in the exact order the
spec states it (`cost_total, money_gained, …, fee, value`). -/
def amountFieldList (d : LogData) : List (Option Int) :=
  [d.cost_total, d.money_gained, d.money_mugged, d.bet_amount, d.bet,
   d.withdrawn, d.cost, d.money, d.won_amount, d.pot, d.credits, d.pay,
   d.rent, d.upkeep_paid, d.donated, d.bounty_reward, d.deposited,
   d.amount, d.fee, d.value]

/-- The spec's description of the extractor: the first field of the priority
list that is present with a strictly positive value, else 0. -/
def firstPositive : List (Option Int) → Int
  | [] => 0
  | o :: rest =>
    match o with
    | some v => if 0 < v then v else firstPositive rest
    | none => firstPositive rest

theorem posOr_firstPositive (o : Option Int) (rest : List (Option Int)) :
    posOr o (firstPositive rest) = firstPositive (o :: rest) := by
  cases o <;> simp [posOr, firstPositive]

theorem extractAmount_eq_firstPositive (log : LogEntry) :
    extractAmount log = firstPositive (amountFieldList log.data) := by
  simp only [extractAmount, amountFieldList]
  rw [show (0 : Int) = firstPositive [] from rfl]
  simp only [posOr_firstPositive]

theorem firstPositive_eq_zero_or_pos (l : List (Option Int)) :
    firstPositive l = 0 ∨ 0 < firstPositive l := by
  induction l with
  | nil => left; rfl
  | cons o rest ih =>
    cases o with
    | none => simpa [firstPositive] using ih
    | some v =>
      by_cases h : 0 < v
      · right; simp [firstPositive, h]
      · simpa [firstPositive, h] using ih

theorem firstPositive_eq_zero_of_none_pos (l : List (Option Int))
    (h : l.all (fun o => !(o.getD 0 > 0)) = true) : firstPositive l = 0 := by
  induction l with
  | nil => rfl
  | cons o rest ih =>
    simp only [List.all_cons, Bool.and_eq_true] at h
    cases o with
    | none => exact ih h.2
    | some v =>
      have hv : ¬ (0 < v) := by
        have := h.1
        simpa [Option.getD, decide_eq_true_eq] using this
      simp only [firstPositive, if_neg hv]
      exact ih h.2

/-- `s.includes(pat)` where `s` is an already-lower-cased character list. -/
def inclL (s : List Char) (pat : String) : Bool := isSubL pat.data s

/-- `isNeutralTransaction` (part_005 lines 1378-1400): internal transfers,
detected by title substrings, in source order. -/
def isNeutralTransaction (log : LogEntry) : Bool :=
  let title := lowerL log.details.title.data
  if inclL title "piggy bank deposit" then true
  else if inclL title "piggy bank withdraw" then true
  else if inclL title "bank deposit" && !inclL title "interest" then true
  else if inclL title "bank withdraw" && !inclL title "fee" then true
  else if inclL title "bank invest" then true
  else if inclL title "trade money add" || inclL title "trade money remove" then true
  else if inclL title "faction money balance change" then true
  else false

/-- `isIncomeTransaction` (part_005 lines 998-1051): the expense keyword
cascade, then the income keywords, then color, then category, defaulting to
expense. -/
def isIncomeTransaction (log : LogEntry) : Bool :=
  let title := lowerL log.details.title.data
  let category := lowerL log.details.category.data
  let color := log.params.color
  if inclL title "buy" || inclL title "purchase" then false
  else if inclL title "ammo buy" then false
  else if inclL title "bet" || inclL title "lottery bet" then false
  else if inclL title "casino" && inclL title "join" then false
  else if inclL title "casino" && inclL title "start" then false
  else if inclL title "casino" && inclL title "lose" then false
  else if inclL title "spin the wheel start" then false
  else if inclL title "high-low start" then false
  else if inclL title "russian roulette join" then false
  else if inclL title "russian roulette start" then false
  else if inclL title "blackjack start" then false
  else if inclL title "bookie bet" then false
  else if inclL title "deposit" || inclL title "outgoing" then false
  else if inclL title "send" || inclL title "transfer" then false
  else if inclL title "upkeep" || inclL title "donate" then false
  else if inclL title "bounty place" then false
  else if inclL title "money send" then false
  else if inclL title "mug receive" then false
  else if inclL title "education start" then false
  else if inclL title "property upgrade" then false
  else if inclL title "sell" || inclL title "sale" then true
  else if inclL title "win" || inclL title "withdraw" then true
  else if inclL title "receive" || inclL title "incoming" then true
  else if inclL title "gain" || inclL title "profit" then true
  else if inclL title "complete" && inclL category "missions" then true
  else if inclL title "pay" && !inclL title "upkeep" then true
  else if inclL title "rent" && inclL title "owner" then true
  else if inclL title "cash in" then true
  else if color == some "green" then true
  else if color == some "red" then false
  else if inclL category "incoming" then true
  else if inclL category "outgoing" then false
  else false

/-- `isBazaarTransaction` (part_005 lines 1230-1250): bazaar-candidate
detection by title substrings. -/
def isBazaarTransaction (log : LogEntry) : Bool :=
  let title := lowerL log.details.title.data
  inclL title "bazaar sell" || inclL title "bazaar buy" ||
  (inclL title "you bought" && inclL title "from" &&
    inclL title "[" && inclL title "]") ||
  (inclL title "you sold" && inclL title "to" &&
    inclL title "[" && inclL title "]") ||
  (inclL title "bought" && inclL title "for $" &&
    inclL title "[" && inclL title "]") ||
  (inclL title "bought" && inclL title "from your bazaar")

/-- The three-way classification the spec ascribes to the analyzer;
`processDailyProfits` realizes it by testing `isNeutralTransaction` first
(skipping the entry) and `isIncomeTransaction` only afterwards. -/
inductive Classification where
  | income
  | expense
  | neutral
deriving DecidableEq

/-- Entry classification as performed by the `processDailyProfits` loop:
the neutral check runs before the income/expense decision. -/
def classify (log : LogEntry) : Classification :=
  if isNeutralTransaction log then Classification.neutral
  else if isIncomeTransaction log then Classification.income
  else Classification.expense

/-- The neutral-pattern list exactly as the spec words it: the claim's
reference predicate, one disjunct per listed pattern. -/
def neutralPatternSpec (title : String) : Bool :=
  let t := lowerL title.data
  inclL t "piggy bank deposit" || inclL t "piggy bank withdraw" ||
  (inclL t "bank deposit" && !inclL t "interest") ||
  (inclL t "bank withdraw" && !inclL t "fee") ||
  inclL t "bank invest" || inclL t "trade money add" ||
  inclL t "trade money remove" || inclL t "faction money balance change"

theorem neutral_cascade_bool (a b c d e f g h i j : Bool) :
    (a || b || (c && !d) || (e && !f) || g || h || i || j) =
    (if a then true
     else if b then true
     else if c && !d then true
     else if e && !f then true
     else if g then true
     else if h || i then true
     else if j then true
     else false) := by
  cases a <;> cases b <;> cases c <;> cases d <;> cases e <;> cases f <;>
    cases g <;> cases h <;> cases i <;> cases j <;> rfl

theorem neutralPatternSpec_eq_isNeutralTransaction (log : LogEntry) :
    neutralPatternSpec log.details.title = isNeutralTransaction log := by
  simp only [neutralPatternSpec, isNeutralTransaction]
  exact neutral_cascade_bool _ _ _ _ _ _ _ _ _ _

/-- JS `x || d` for an optional number `x`: `0` (and absence) is falsy and
falls back to `d`; any other number, negative included, is kept. -/
def jsOr (o : Option Int) (d : Int) : Int :=
  match o with
  | some v => if v = 0 then d else v
  | none => d

/-- JS division on rationals, written with `Rat.divInt` so that the kernel
can evaluate it on concrete data (`Rat.inv`/`Rat.mul` are irreducible).
`qdiv_eq_div` proves it IS rational division, with `q / 0 = 0` standing in
for the JS `Infinity` (no statement below inspects a value divided by 0). -/
def qdiv (a b : Rat) : Rat := Rat.divInt (a.num * b.den) (a.den * b.num)

/-- Kernel-evaluable rational multiplication; `qmul_eq_mul` proves it equal
to `a * b`. -/
def qmul (a b : Rat) : Rat := Rat.divInt (a.num * b.num) (a.den * b.den)

/-- Kernel-evaluable rational subtraction; `qsub_eq_sub` proves it equal to
`a - b`. -/
def qsub (a b : Rat) : Rat := Rat.divInt (a.num * b.den - b.num * a.den) (a.den * b.den)

theorem qmul_eq_mul (a b : Rat) : qmul a b = a * b := by
  rw [qmul, Rat.divInt_eq_div]
  push_cast
  rw [← div_mul_div_comm, Rat.num_div_den, Rat.num_div_den]

theorem qdiv_eq_div (a b : Rat) : qdiv a b = a / b := by
  rcases eq_or_ne b 0 with rfl | hb
  · simp [qdiv]
  · rw [qdiv, Rat.divInt_eq_div]
    push_cast
    rw [← div_mul_div_comm, Rat.num_div_den, div_eq_mul_inv a b]
    congr 1
    rw [Rat.inv_def', Rat.divInt_eq_div]
    norm_cast

theorem qsub_eq_sub (a b : Rat) : qsub a b = a - b := by
  have had : ((a.den : Rat)) ≠ 0 := Nat.cast_ne_zero.mpr a.den_nz
  have hbd : ((b.den : Rat)) ≠ 0 := Nat.cast_ne_zero.mpr b.den_nz
  rw [qsub, Rat.divInt_eq_div]
  push_cast
  conv_rhs => rw [← Rat.num_div_den a, ← Rat.num_div_den b]
  rw [div_sub_div _ _ had hbd]
  congr 1
  ring

/-- A parsed bazaar trade (`BazaarTransactionInfo`).  `unitPrice` is a `Rat`
because the free-text paths derive it as `amount / quantity`; the JS value
`Infinity` arising from a zero quantity has no `Rat` counterpart, and no
statement below depends on the unit price at zero quantity. -/
structure BazaarTransactionInfo where
  itemName : String
  quantity : Int
  unitPrice : Rat
  totalAmount : Int
  tradingPartner : String
  playerId : Option String := none
  isSale : Bool
  timestamp : Nat
  originalTitle : String
deriving DecidableEq

/-- `getItemName` (part_005 lines 274-281): cached id-to-name lookup; a
missing (or empty, which is falsy) name degrades to the placeholder.  The
recording of the id in the unknown-id diagnostic set is omitted. -/
def getItemName (mapping : Nat → Option String) (itemId : Nat) : String :=
  match mapping itemId with
  | some n => if n = "" then "Item #" ++ toString itemId else n
  | none => "Item #" ++ toString itemId

/-!
Scanners for the four free-text title patterns of `parseBazaarTransaction`.
Each mirrors the JS regex engine on the concrete pattern: match start
positions are tried left to right, each `(.+?)` expands lazily one
character at a time (retrying the rest of the pattern after every
expansion, which realizes the engine's backtracking), and `(\d+)` is
greedy — since the character after it in every pattern is `]`, which is not
a digit, the maximal digit run is the only candidate.  The trailing
`[\d,]+` needs exactly one class character to succeed because nothing
follows it in the pattern.
-/

/-- Tail `(\d+)\] for \$[\d,]+` of the "You bought/sold" patterns: returns
the captured digits. -/
def moneyTail (s : List Char) : Option (List Char) :=
  let ds := s.takeWhile Char.isDigit
  if ds.isEmpty then none
  else
    let rest := s.drop ds.length
    if ("] for $".data).isPrefixOf rest then
      match rest.drop 7 with
      | c :: _ => if c.isDigit || c == ',' then some ds else none
      | [] => none
    else none

/-- Lazy scan for the second group of `… from (.+?) \[(\d+)\] for \$…`:
grows the capture one character at a time, testing ` [` + `moneyTail`. -/
def g2You : List Char → List Char → Option (List Char × List Char)
  | _, [] => none
  | acc, c :: rest =>
    let acc2 := acc ++ [c]
    if (" [".data).isPrefixOf rest then
      match moneyTail (rest.drop 2) with
      | some ds => some (acc2, ds)
      | none => g2You acc2 rest
    else g2You acc2 rest

/-- Lazy scan for the first group: grows the capture, testing the middle
literal (` from ` / ` to `) followed by the `g2You` tail. -/
def g1You (mid : List Char) : List Char → List Char → Option (List Char × List Char × List Char)
  | _, [] => none
  | acc, c :: rest =>
    let acc2 := acc ++ [c]
    if mid.isPrefixOf rest then
      match g2You [] (rest.drop mid.length) with
      | some (p, ds) => some (acc2, p, ds)
      | none => g1You mid acc2 rest
    else g1You mid acc2 rest

/-- Unanchored leftmost match of `pre(.+?)mid(.+?) \[(\d+)\] for \$[\d,]+`
(patterns 1 and 2 of `parseBazaarTransaction`): returns
(item text, counterparty name, counterparty id digits). -/
def youMatch (pre mid : List Char) : List Char → Option (List Char × List Char × List Char)
  | [] => none
  | c :: rest =>
    if pre.isPrefixOf (c :: rest) then
      match g1You mid [] ((c :: rest).drop pre.length) with
      | some r => some r
      | none => youMatch pre mid rest
    else youMatch pre mid rest

/-- Lazy scan for the item group of `\] bought (.+?)tail[\d,]+` where
`tail` is ` for \$` (pattern 3) or ` from your bazaar for \$` (pattern 4). -/
def g3P (tail : List Char) : List Char → List Char → Option (List Char)
  | _, [] => none
  | acc, c :: rest =>
    let acc2 := acc ++ [c]
    if tail.isPrefixOf rest then
      match rest.drop tail.length with
      | d :: _ => if d.isDigit || d == ',' then some acc2 else g3P tail acc2 rest
      | [] => g3P tail acc2 rest
    else g3P tail acc2 rest

/-- Tail `(\d+)\] bought (.+?)…` of patterns 3 and 4: returns the captured
id digits and item text. -/
def boughtTail (tail s : List Char) : Option (List Char × List Char) :=
  let ds := s.takeWhile Char.isDigit
  if ds.isEmpty then none
  else
    let rest := s.drop ds.length
    if ("] bought ".data).isPrefixOf rest then
      match g3P tail [] (rest.drop 9) with
      | some item => some (ds, item)
      | none => none
    else none

/-- Lazy scan for the leading `(.+?) \[` of patterns 3 and 4.  Because the
pattern starts with `(.+?)`, a match starting at any position yields one
starting at position 0 with a longer first group, and the engine commits to
start position 0 with the lazily shortest group — which is exactly this
scan. -/
def pMatch (tail : List Char) : List Char → List Char → Option (List Char × List Char × List Char)
  | _, [] => none
  | acc, c :: rest =>
    let acc2 := acc ++ [c]
    if (" [".data).isPrefixOf rest then
      match boughtTail tail (rest.drop 2) with
      | some (ds, item) => some (acc2, ds, item)
      | none => pMatch tail acc2 rest
    else pMatch tail acc2 rest

/-- Leftmost match of `(.+?) \[(\d+)\] bought (.+?)tail[\d,]+`: returns
(counterparty name, id digits, item text). -/
def partnerMatch (tail s : List Char) : Option (List Char × List Char × List Char) :=
  pMatch tail [] s

/-- Suffix `\s+x(\d+)$` of the item-quantity pattern: a nonempty whitespace
run, then `x`, then digits reaching the end of the string. -/
def qtySuffix (s : List Char) : Option (List Char) :=
  let ws := s.takeWhile isSpaceChar
  if ws.isEmpty then none
  else
    match s.drop ws.length with
    | 'x' :: ds => if !ds.isEmpty && ds.all Char.isDigit then some ds else none
    | _ => none

/-- Lazy scan for the name group of `(.+?)\s+x(\d+)$`. -/
def pqAux : List Char → List Char → Option (List Char × List Char)
  | _, [] => none
  | acc, c :: rest =>
    let acc2 := acc ++ [c]
    match qtySuffix rest with
    | some ds => some (acc2, ds)
    | none => pqAux acc2 rest

/-- `parseItemQuantity` (part_005 lines 1206-1226): split `"Name xN"` into
the trimmed name and the quantity `N`; without the suffix the quantity is
1. -/
def parseItemQuantity (itemPart : String) : String × Int :=
  match pqAux [] itemPart.data with
  | some (name, ds) => (⟨trimL name⟩, (digitsToNat ds : Int))
  | none => (⟨trimL itemPart.data⟩, 1)

/-- `parseBazaarTransaction` (part_005 lines 1054-1200): the two structured
branches for the exact titles `bazaar sell` / `bazaar buy`, then the four
free-text patterns in source order. -/
def parseBazaarTransaction (mapping : Nat → Option String) (log : LogEntry) :
    Option BazaarTransactionInfo :=
  let title := log.details.title
  let amount := extractAmount log
  if amount = 0 then none
  else if lowerL title.data = "bazaar sell".data then
    let firstItem := log.data.items.head?
    let itemId := firstItem.bind BItem.id
    let quantity := jsOr (firstItem.bind BItem.qty) 1
    let unitPrice := jsOr log.data.cost_each amount
    let itemName :=
      match itemId with
      | some i => if i = 0 then "Unknown Item" else getItemName mapping i
      | none => "Unknown Item"
    let tradingPartner :=
      match log.data.buyer with
      | some b => if b = "" then "Unknown Player" else "Player [" ++ b ++ "]"
      | none => "Unknown Player"
    some { itemName := itemName, quantity := quantity,
           unitPrice := (unitPrice : Rat), totalAmount := amount,
           tradingPartner := tradingPartner, playerId := none,
           isSale := true, timestamp := log.timestamp,
           originalTitle := title }
  else if lowerL title.data = "bazaar buy".data then
    let firstItem := log.data.items.head?
    let itemId := firstItem.bind BItem.id
    let quantity := jsOr (firstItem.bind BItem.qty) 1
    let unitPrice := jsOr log.data.cost_each amount
    let itemName :=
      match itemId with
      | some i => if i = 0 then "Unknown Item" else getItemName mapping i
      | none => "Unknown Item"
    let tradingPartner :=
      match log.data.seller with
      | some b => if b = "" then "Unknown Player" else "Player [" ++ b ++ "]"
      | none => "Unknown Player"
    some { itemName := itemName, quantity := quantity,
           unitPrice := (unitPrice : Rat), totalAmount := amount,
           tradingPartner := tradingPartner, playerId := none,
           isSale := false, timestamp := log.timestamp,
           originalTitle := title }
  else
    match youMatch "You bought ".data " from ".data title.data with
    | some (itemPart, playerName, pid) =>
      let nq := parseItemQuantity ⟨itemPart⟩
      some { itemName := nq.1, quantity := nq.2,
             unitPrice := qdiv (amount : Rat) (nq.2 : Rat), totalAmount := amount,
             tradingPartner := ⟨playerName⟩, playerId := some ⟨pid⟩,
             isSale := false, timestamp := log.timestamp,
             originalTitle := title }
    | none =>
      match youMatch "You sold ".data " to ".data title.data with
      | some (itemPart, playerName, pid) =>
        let nq := parseItemQuantity ⟨itemPart⟩
        some { itemName := nq.1, quantity := nq.2,
               unitPrice := qdiv (amount : Rat) (nq.2 : Rat), totalAmount := amount,
               tradingPartner := ⟨playerName⟩, playerId := some ⟨pid⟩,
               isSale := true, timestamp := log.timestamp,
               originalTitle := title }
      | none =>
        match partnerMatch " for $".data title.data with
        | some (playerName, pid, itemPart) =>
          let nq := parseItemQuantity ⟨itemPart⟩
          some { itemName := nq.1, quantity := nq.2,
                 unitPrice := qdiv (amount : Rat) (nq.2 : Rat), totalAmount := amount,
                 tradingPartner := ⟨playerName⟩, playerId := some ⟨pid⟩,
                 isSale := true, timestamp := log.timestamp,
                 originalTitle := title }
        | none =>
          match partnerMatch " from your bazaar for $".data title.data with
          | some (playerName, pid, itemPart) =>
            let nq := parseItemQuantity ⟨itemPart⟩
            some { itemName := nq.1, quantity := nq.2,
                   unitPrice := qdiv (amount : Rat) (nq.2 : Rat), totalAmount := amount,
                   tradingPartner := ⟨playerName⟩, playerId := some ⟨pid⟩,
                   isSale := true, timestamp := log.timestamp,
                   originalTitle := title }
          | none => none

/-- Stable insertion: `a` goes before the first element `b` with `le a b`,
so equal keys keep their original relative order. -/
def insertBy (le : α → α → Bool) (a : α) : List α → List α
  | [] => [a]
  | b :: bs => if le a b then a :: b :: bs else b :: insertBy le a bs

/-- Stable sort; for a total preorder `le` this produces the unique stable
ordering, the same list JS's stable `Array.prototype.sort` returns. -/
def sortBy (le : α → α → Bool) : List α → List α
  | [] => []
  | a :: as => insertBy le a (sortBy le as)

/-- Association-list lookup (JS `Map.prototype.get`). -/
def alookup [DecidableEq κ] (k : κ) : List (κ × ν) → Option ν
  | [] => none
  | p :: rest => if p.1 = k then some p.2 else alookup k rest

/-- JS `Map.prototype.has`. -/
def hasA [DecidableEq κ] (k : κ) (l : List (κ × ν)) : Bool := (alookup k l).isSome

/-- In-place update of the value stored at `k`, preserving insertion
order. -/
def aupdate [DecidableEq κ] (k : κ) (f : ν → ν) : List (κ × ν) → List (κ × ν)
  | [] => []
  | p :: rest => if p.1 = k then (p.1, f p.2) :: rest else p :: aupdate k f rest

/-- `if (!map.has(k)) map.set(k, init); f(map.get(k))` — JS `Map.set` on a
missing key appends in insertion order. -/
def upsertA [DecidableEq κ] (k : κ) (init : ν) (f : ν → ν) (l : List (κ × ν)) :
    List (κ × ν) :=
  if hasA k l then aupdate k f l else l ++ [(k, f init)]

/-- Keys of a JS `Map` built by grouping: first-occurrence order. -/
def firstKeysAux (key : α → String) (seen : List String) : List α → List String
  | [] => []
  | a :: rest =>
    if key a ∈ seen then firstKeysAux key seen rest
    else key a :: firstKeysAux key (key a :: seen) rest

/-- Distinct values of `key` over `l`, in first-occurrence order. -/
def firstKeys (key : α → String) (l : List α) : List String := firstKeysAux key [] l

/-- Sum of an `Int`-valued projection (a JS `reduce((s, t) => s + f(t), 0)`). -/
def sumBy (f : α → Int) (l : List α) : Int := (l.map f).sum

/-- `Math.max(...transactions.map(t => t.timestamp))` on a nonempty group. -/
def maxTs (l : List BazaarTransactionInfo) : Nat :=
  l.foldl (fun m t => max m t.timestamp) 0

/-- One per-item rollup (`ItemAnalytics`). -/
structure ItemAnalytics where
  itemName : String
  totalBought : Int
  totalSold : Int
  totalQuantityBought : Int
  totalQuantitySold : Int
  avgBuyPrice : Rat
  avgSellPrice : Rat
  profitMargin : Rat
  netProfit : Int
  transactionCount : Nat
  lastActivity : Nat
deriving DecidableEq

/-- One per-partner rollup (`TradingPartnerAnalytics`). -/
structure TradingPartnerAnalytics where
  partnerName : String
  playerId : Option String
  totalTransactions : Nat
  totalVolume : Int
  mostTradedItem : String
  lastTransaction : Nat
deriving DecidableEq

/-- The per-day bazaar rollup (`BazaarAnalytics`). -/
structure BazaarAnalytics where
  totalBazaarProfit : Int
  totalBazaarVolume : Int
  totalTransactions : Nat
  mostProfitableItem : String
  bestTradingPartner : String
  itemAnalytics : List ItemAnalytics
  tradingPartners : List TradingPartnerAnalytics
  bazaarTransactions : List BazaarTransactionInfo
deriving DecidableEq

/-- `calculateBazaarAnalytics` (part_005 lines 1253-1376): group one day's
trades by item and by partner, roll up, and sort each rollup descending
(stable, as JS sort).  `x[0]?.name || 'N/A'` is falsy on both a missing
head and an empty name. -/
def calculateBazaarAnalytics (bazaarTransactions : List BazaarTransactionInfo) :
    BazaarAnalytics :=
  if bazaarTransactions.isEmpty then
    { totalBazaarProfit := 0, totalBazaarVolume := 0, totalTransactions := 0,
      mostProfitableItem := "N/A", bestTradingPartner := "N/A",
      itemAnalytics := [], tradingPartners := [], bazaarTransactions := [] }
  else
    let itemKeys := firstKeys BazaarTransactionInfo.itemName bazaarTransactions
    let itemAnalytics := itemKeys.map (fun name =>
      let transactions := bazaarTransactions.filter (fun t => t.itemName == name)
      let purchases := transactions.filter (fun t => !t.isSale)
      let sales := transactions.filter (fun t => t.isSale)
      let totalBought := sumBy BazaarTransactionInfo.totalAmount purchases
      let totalSold := sumBy BazaarTransactionInfo.totalAmount sales
      let totalQuantityBought := sumBy BazaarTransactionInfo.quantity purchases
      let totalQuantitySold := sumBy BazaarTransactionInfo.quantity sales
      let avgBuyPrice : Rat :=
        if 0 < totalQuantityBought then qdiv (totalBought : Rat) (totalQuantityBought : Rat) else 0
      let avgSellPrice : Rat :=
        if 0 < totalQuantitySold then qdiv (totalSold : Rat) (totalQuantitySold : Rat) else 0
      let profitMargin : Rat :=
        if 0 < avgBuyPrice then qmul (qdiv (qsub avgSellPrice avgBuyPrice) avgBuyPrice) 100 else 0
      { itemName := name, totalBought := totalBought, totalSold := totalSold,
        totalQuantityBought := totalQuantityBought,
        totalQuantitySold := totalQuantitySold,
        avgBuyPrice := avgBuyPrice, avgSellPrice := avgSellPrice,
        profitMargin := profitMargin, netProfit := totalSold - totalBought,
        transactionCount := transactions.length,
        lastActivity := maxTs transactions })
    let totalProfit := sumBy ItemAnalytics.netProfit itemAnalytics
    let totalVolume := sumBy (fun a => a.totalBought + a.totalSold) itemAnalytics
    let itemAnalyticsSorted :=
      sortBy (fun a b => decide (b.netProfit ≤ a.netProfit)) itemAnalytics
    let partnerKeys := firstKeys BazaarTransactionInfo.tradingPartner bazaarTransactions
    let tradingPartners := partnerKeys.map (fun pname =>
      let transactions := bazaarTransactions.filter (fun t => t.tradingPartner == pname)
      let countKeys := firstKeys BazaarTransactionInfo.itemName transactions
      let counts := countKeys.map (fun n =>
        (n, transactions.countP (fun t => t.itemName == n)))
      let mostTradedItem :=
        match sortBy (fun a b => decide (b.2 ≤ a.2)) counts with
        | [] => "N/A"
        | p :: _ => if p.1 = "" then "N/A" else p.1
      { partnerName := pname,
        playerId := match transactions with | t :: _ => t.playerId | [] => none,
        totalTransactions := transactions.length,
        totalVolume := sumBy BazaarTransactionInfo.totalAmount transactions,
        mostTradedItem := mostTradedItem,
        lastTransaction := maxTs transactions })
    let tradingPartnersSorted :=
      sortBy (fun a b => decide (b.totalVolume ≤ a.totalVolume)) tradingPartners
    { totalBazaarProfit := totalProfit, totalBazaarVolume := totalVolume,
      totalTransactions := bazaarTransactions.length,
      mostProfitableItem :=
        match itemAnalyticsSorted with
        | [] => "N/A"
        | a :: _ => if a.itemName = "" then "N/A" else a.itemName,
      bestTradingPartner :=
        match tradingPartnersSorted with
        | [] => "N/A"
        | p :: _ => if p.partnerName = "" then "N/A" else p.partnerName,
      itemAnalytics := itemAnalyticsSorted,
      tradingPartners := tradingPartnersSorted,
      bazaarTransactions := bazaarTransactions }

/-- The calendar-date key `new Date(ts * 1000).toISOString().split('T')[0]`
computes: the UTC day number of the timestamp (the `YYYY-MM-DD` string is a
bijective image of this number; `toISOString` always uses UTC). -/
def utcDay (ts : Nat) : Int := ((ts / 86400 : Nat) : Int)

/-- One per-title running summary (`TransactionSummary`). -/
structure TransactionSummary where
  type : String
  title : String
  amount : Int
  count : Nat
  isIncome : Bool
  isNeutral : Bool
deriving DecidableEq

/-- One day's accumulator inside `processDailyProfits`' `dailyData` map. -/
structure DayAcc where
  income : Int
  expenses : Int
  transactions : List (String × TransactionSummary)
deriving DecidableEq

/-- The mutable state of the `processDailyProfits` entry loop: the per-day
map plus the cross-day `allBazaarTransactions` array. -/
structure ProcState where
  daily : List (Int × DayAcc)
  bazaar : List BazaarTransactionInfo
deriving DecidableEq

/-- The empty day bucket `{income: 0, expenses: 0, transactions: new Map()}`. -/
def emptyDay : DayAcc := { income := 0, expenses := 0, transactions := [] }

/-- Day-bucket initialization of `processDailyProfits`: one bucket per
`i < days`, keyed `today - i` where `today` is the run date's day number. -/
def initDaily (days : Nat) (today : Int) : List (Int × DayAcc) :=
  (List.range days).map (fun (i : Nat) => (today - (i : Int), emptyDay))

/-- The body of `processDailyProfits`' per-entry loop (part_005 lines
600-750): skip out-of-window entries; record a parsed bazaar trade; skip
neutral entries from the day totals; otherwise add a positive amount to
income or expenses (unless the title is a piggy-bank deposit) and update
the per-(title, direction) summary. -/
def step (mapping : Nat → Option String) (st : ProcState) (log : LogEntry) : ProcState :=
  let dkey := utcDay log.timestamp
  if hasA dkey st.daily then
    let amount := extractAmount log
    let bz :=
      if isBazaarTransaction log then
        match parseBazaarTransaction mapping log with
        | some t => st.bazaar ++ [t]
        | none => st.bazaar
      else st.bazaar
    if isNeutralTransaction log then { daily := st.daily, bazaar := bz }
    else
      let isIncome := isIncomeTransaction log
      if 0 < amount then
        let isPiggy := inclL (lowerL log.details.title.data) "piggy bank deposit"
        let ttype : String := if isPiggy then "neutral" else if isIncome then "income" else "expense"
        let tkey := log.details.title ++ "-" ++ ttype
        let init : TransactionSummary :=
          { type := log.details.category, title := log.details.title,
            amount := 0, count := 0,
            isIncome := !isPiggy && isIncome, isNeutral := isPiggy }
        let daily2 := aupdate dkey (fun day =>
          let day2 :=
            if isPiggy then day
            else if isIncome then { day with income := day.income + amount }
            else { day with expenses := day.expenses + amount }
          let trans2 := upsertA tkey init
            (fun t => { t with amount := t.amount + amount, count := t.count + 1 })
            day2.transactions
          { day2 with transactions := trans2 }) st.daily
        { daily := daily2, bazaar := bz }
      else { daily := st.daily, bazaar := bz }
  else st

/-- One returned day record (`DailyProfit`); `date` is the UTC day number
standing for the `YYYY-MM-DD` key. -/
structure DailyProfit where
  date : Int
  income : Int
  expenses : Int
  netProfit : Int
  transactions : List TransactionSummary
  bazaarAnalytics : BazaarAnalytics
deriving DecidableEq

/-- `processDailyProfits` (part_005 lines 554-798): initialize the window,
fold the loop body over the entries, then emit one `DailyProfit` per day
(transactions sorted by amount descending, bazaar analytics computed from
that day's trades) and reverse to oldest-first order. -/
def processDailyProfits (mapping : Nat → Option String) (logs : List LogEntry)
    (days : Nat) (today : Int) : List DailyProfit :=
  let st := logs.foldl (step mapping) { daily := initDaily days today, bazaar := [] }
  let result := (List.range days).map (fun (i : Nat) =>
    let dkey := today - (i : Int)
    let day := (alookup dkey st.daily).getD emptyDay
    let dayBazaar := st.bazaar.filter (fun t => utcDay t.timestamp == dkey)
    { date := dkey, income := day.income, expenses := day.expenses,
      netProfit := day.income - day.expenses,
      transactions := sortBy (fun a b => decide (b.amount ≤ a.amount))
        (day.transactions.map Prod.snd),
      bazaarAnalytics := calculateBazaarAnalytics dayBazaar : DailyProfit })
  result.reverse

/-- The deduplication of `analyzeProfitForDays` (part_005 lines 520-531):
a `Map` keyed by `log.id` keeps the first occurrence of every id,
`Array.from(map.values())` returns them in insertion order. -/
def dedupeAux (seen : List String) : List LogEntry → List LogEntry
  | [] => []
  | l :: ls => if l.id ∈ seen then dedupeAux seen ls else l :: dedupeAux (l.id :: seen) ls

/-- `dedupe`: collapse the combined category fetches to one entry per id. -/
def dedupe (logs : List LogEntry) : List LogEntry := dedupeAux [] logs

/-- The pure tail of `analyzeProfitForDays` (part_005 lines 520-548), after
the category fetches (external I/O, out of scope) are concatenated:
deduplicate, sort newest-first (JS stable sort), aggregate. -/
def analyzeCore (mapping : Nat → Option String) (allLogs : List LogEntry)
    (days : Nat) (today : Int) : List DailyProfit :=
  processDailyProfits mapping
    (sortBy (fun a b => decide (b.timestamp ≤ a.timestamp)) (dedupe allLogs))
    days today

/-! Concrete fixtures used by the claim theorems. -/

/-- Item-name cache holding item 206, as in the spec's scenarios. -/
def mapping1 : Nat → Option String := fun i => if i = 206 then some "Melatonin" else none

/-- Midnight UTC of day number 20000 (2024-10-04), the concrete analysis
day of the scenarios. -/
def ts0 : Nat := 20000 * 86400

/-- Scenario entry: a structured "Bazaar sell" worth 5000. -/
def eSell : LogEntry :=
  { id := "L1", timestamp := ts0 + 100,
    details := { title := "Bazaar sell", category := "Item market" },
    data := { money_gained := some 5000,
              items := [{ id := some 206, qty := some 1 }],
              buyer := some "99", cost_each := some 5000 },
    params := { color := some "green" } }

/-- Scenario entry: a "Lottery bet" worth 1000. -/
def eBet : LogEntry :=
  { id := "L2", timestamp := ts0 + 50,
    details := { title := "Lottery bet", category := "Casino" },
    data := { cost := some 1000 },
    params := { color := some "red" } }

/-- Scenario entry: a "Piggy bank deposit" of 2000. -/
def ePiggy : LogEntry :=
  { id := "L3", timestamp := ts0 + 10,
    details := { title := "Piggy bank deposit", category := "Piggy bank" },
    data := { deposited := some 2000 } }

/-- A "Piggy bank deposit" carrying the green (income) color hint. -/
def piggyGreen : LogEntry :=
  { id := "L4", timestamp := ts0 + 20,
    details := { title := "Piggy bank deposit", category := "Piggy bank" },
    data := { deposited := some 300 },
    params := { color := some "green" } }

/-- An entry carrying both `cost_total = 100` and `money_gained = 50`. -/
def entryBothFields : LogEntry :=
  { id := "L5", timestamp := ts0 + 30,
    details := { title := "Some purchase", category := "General" },
    data := { cost_total := some 100, money_gained := some 50 } }

/-- An entry on which every amount field is absent or nonpositive. -/
def entryAllNonPos : LogEntry :=
  { id := "L6", timestamp := ts0 + 40,
    details := { title := "Weird entry", category := "General" },
    data := { cost_total := some 0, bet := some (-5), value := some (-1) } }

/-!
### C1 — end-to-end 1-day scenario

The income/expense/netProfit and bazaar-analytics parts of the claim hold,
but the piggy-bank entry does NOT appear in the day's transactions list:
`processDailyProfits` tests `isNeutralTransaction` (whose first pattern is
"piggy bank deposit") and `continue`s before reaching the transaction
tracking code, so the `isPiggyBankDeposit` display branch (and its
`isNeutral: true` summaries) is unreachable.
-/

/-- C1 (counterexample): in the spec's own 3-entry, 1-day scenario the
day's transactions list holds exactly the bazaar-sell and lottery-bet
summaries — no entry with `isNeutral = true`, contradicting the claim that
the piggy-bank deposit appears there. -/
theorem claim_C1_counterexample :
    (analyzeCore mapping1 [eSell, eBet, ePiggy] 1 20000).map
        (fun d => d.transactions.map (fun t => (t.title, t.isNeutral))) =
      [[("Bazaar sell", false), ("Lottery bet", false)]] := by
  decide

/-- C1 (amended): the 1-day window over the three deduplicated entries
yields income 5000, expenses 1000, netProfit 4000; bazaarAnalytics shows
one transaction with netProfit 5000 for the sold item; the piggy-bank
deposit is excluded from the income and expense sums — but, being skipped
as neutral before transaction tracking, it does not appear in the day's
transactions list, which holds exactly the bazaar-sell and lottery-bet
summaries. -/
theorem claim_C1_amended :
    extractAmount ePiggy = 2000 ∧
    classify ePiggy = Classification.neutral ∧
    analyzeCore mapping1 [eSell, eBet, ePiggy] 1 20000 =
      [{ date := 20000, income := 5000, expenses := 1000, netProfit := 4000,
         transactions :=
           [{ type := "Item market", title := "Bazaar sell", amount := 5000,
              count := 1, isIncome := true, isNeutral := false },
            { type := "Casino", title := "Lottery bet", amount := 1000,
              count := 1, isIncome := false, isNeutral := false }],
         bazaarAnalytics :=
           { totalBazaarProfit := 5000, totalBazaarVolume := 5000,
             totalTransactions := 1, mostProfitableItem := "Melatonin",
             bestTradingPartner := "Player [99]",
             itemAnalytics :=
               [{ itemName := "Melatonin", totalBought := 0, totalSold := 5000,
                  totalQuantityBought := 0, totalQuantitySold := 1,
                  avgBuyPrice := 0, avgSellPrice := 5000, profitMargin := 0,
                  netProfit := 5000, transactionCount := 1,
                  lastActivity := ts0 + 100 }],
             tradingPartners :=
               [{ partnerName := "Player [99]", playerId := none,
                  totalTransactions := 1, totalVolume := 5000,
                  mostTradedItem := "Melatonin", lastTransaction := ts0 + 100 }],
             bazaarTransactions :=
               [{ itemName := "Melatonin", quantity := 1, unitPrice := 5000,
                  totalAmount := 5000, tradingPartner := "Player [99]",
                  playerId := none, isSale := true, timestamp := ts0 + 100,
                  originalTitle := "Bazaar sell" }] } }] := by
  refine ⟨by decide, by decide, by decide⟩

/-!
### C2 — amount-extraction priority
-/

/-- C2: `extractAmount` returns the first field of the spec's fixed
priority list that is present and strictly positive; an entry with all
listed fields absent or nonpositive extracts 0; an entry carrying both
`cost_total = 100` and `money_gained = 50` extracts 100. -/
theorem claim_C2 :
    (∀ log : LogEntry, extractAmount log = firstPositive (amountFieldList log.data)) ∧
    (∀ log : LogEntry,
      (amountFieldList log.data).all (fun o => !(o.getD 0 > 0)) = true →
      extractAmount log = 0) ∧
    extractAmount entryBothFields = 100 := by
  refine ⟨extractAmount_eq_firstPositive, ?_, by decide⟩
  intro log h
  rw [extractAmount_eq_firstPositive]
  exact firstPositive_eq_zero_of_none_pos _ h

/-- C2 witness: the priority theorem applied to the two concrete entries. -/
theorem claim_C2_witness :
    extractAmount entryAllNonPos = 0 ∧ extractAmount entryBothFields = 100 :=
  ⟨claim_C2.2.1 entryAllNonPos (by decide), claim_C2.2.2⟩

/-!
### C3 — neutral classification precedence
-/

/-- C3: every entry whose lower-cased title matches one of the spec's
neutral patterns classifies as Neutral, and the processing step leaves the
daily income/expense/transaction state untouched for it (the neutral check
runs before every income/expense keyword, color, and category rule); in
particular a "Piggy bank deposit" with color green classifies Neutral. -/
theorem claim_C3 :
    (∀ log : LogEntry, neutralPatternSpec log.details.title = true →
      classify log = Classification.neutral ∧
      ∀ (mapping : Nat → Option String) (st : ProcState),
        (step mapping st log).daily = st.daily) ∧
    classify piggyGreen = Classification.neutral := by
  constructor
  · intro log h
    have hn : isNeutralTransaction log = true := by
      rw [← neutralPatternSpec_eq_isNeutralTransaction]; exact h
    constructor
    · simp [classify, hn]
    · intro mapping st
      simp only [step, hn]
      split <;> rfl
  · decide

/-- C3 witness: the neutral-precedence theorem applied to the concrete
green-colored piggy-bank deposit and a concrete 1-day state. -/
theorem claim_C3_witness :
    classify piggyGreen = Classification.neutral ∧
    (step mapping1 { daily := initDaily 1 20000, bazaar := [] } piggyGreen).daily =
      initDaily 1 20000 := by
  have h := claim_C3.1 piggyGreen (by decide)
  exact ⟨h.1, h.2 mapping1 _⟩

/-!
### C8 — deduplication keeps the first occurrence per id and is idempotent
-/

theorem dedupeAux_mem_not_seen :
    ∀ (ls : List LogEntry) (seen : List String), ∀ l ∈ dedupeAux seen ls, l.id ∉ seen := by
  intro ls
  induction ls with
  | nil => intro seen l hl; simp [dedupeAux] at hl
  | cons e rest ih =>
    intro seen l hl
    simp only [dedupeAux] at hl
    by_cases he : e.id ∈ seen
    · rw [if_pos he] at hl
      exact ih seen l hl
    · rw [if_neg he] at hl
      rcases List.mem_cons.mp hl with rfl | hl2
      · exact he
      · intro hmem
        exact ih (e.id :: seen) l hl2 (List.mem_cons_of_mem _ hmem)

theorem dedupeAux_sublist :
    ∀ (ls : List LogEntry) (seen : List String), (dedupeAux seen ls).Sublist ls := by
  intro ls
  induction ls with
  | nil => intro seen; simp [dedupeAux]
  | cons e rest ih =>
    intro seen
    simp only [dedupeAux]
    by_cases he : e.id ∈ seen
    · rw [if_pos he]
      exact (ih seen).cons e
    · rw [if_neg he]
      exact (ih (e.id :: seen)).cons₂ e

theorem dedupeAux_find :
    ∀ (ls : List LogEntry) (seen : List String), ∀ l ∈ dedupeAux seen ls,
      ls.find? (fun e => e.id == l.id) = some l := by
  intro ls
  induction ls with
  | nil => intro seen l hl; simp [dedupeAux] at hl
  | cons e rest ih =>
    intro seen l hl
    simp only [dedupeAux] at hl
    by_cases he : e.id ∈ seen
    · rw [if_pos he] at hl
      have hne : (e.id == l.id) = false := by
        rcases heq : e.id == l.id with _ | _
        · rfl
        · exact absurd (by
            have : e.id = l.id := by simpa using heq
            exact this ▸ he) (dedupeAux_mem_not_seen rest seen l hl)
      simp only [List.find?_cons, hne]
      exact ih seen l hl
    · rw [if_neg he] at hl
      rcases List.mem_cons.mp hl with rfl | hl2
      · simp [List.find?_cons]
      · have hnotin : l.id ∉ e.id :: seen := dedupeAux_mem_not_seen rest (e.id :: seen) l hl2
        have hne : (e.id == l.id) = false := by
          rcases heq : e.id == l.id with _ | _
          · rfl
          · have : e.id = l.id := by simpa using heq
            exact absurd (this ▸ List.mem_cons_self e.id seen) hnotin
        simp only [List.find?_cons, hne]
        exact ih (e.id :: seen) l hl2

theorem dedupeAux_complete :
    ∀ (ls : List LogEntry) (seen : List String), ∀ l ∈ ls, l.id ∉ seen →
      ∃ l2 ∈ dedupeAux seen ls, l2.id = l.id := by
  intro ls
  induction ls with
  | nil => intro seen l hl; simp at hl
  | cons e rest ih =>
    intro seen l hl hseen
    simp only [dedupeAux]
    by_cases he : e.id ∈ seen
    · rw [if_pos he]
      rcases List.mem_cons.mp hl with rfl | hl2
      · exact absurd he hseen
      · exact ih seen l hl2 hseen
    · rw [if_neg he]
      rcases List.mem_cons.mp hl with rfl | hl2
      · exact ⟨l, List.mem_cons_self _ _, rfl⟩
      · by_cases hid : l.id = e.id
        · exact ⟨e, List.mem_cons_self _ _, hid.symm⟩
        · obtain ⟨l2, hl2m, hl2id⟩ := ih (e.id :: seen) l hl2 (by
            intro hmem
            rcases List.mem_cons.mp hmem with h1 | h2
            · exact hid h1
            · exact hseen h2)
          exact ⟨l2, List.mem_cons_of_mem _ hl2m, hl2id⟩

theorem dedupeAux_id_nodup :
    ∀ (ls : List LogEntry) (seen : List String),
      ((dedupeAux seen ls).map (fun l => l.id)).Nodup := by
  intro ls
  induction ls with
  | nil => intro seen; simp [dedupeAux]
  | cons e rest ih =>
    intro seen
    simp only [dedupeAux]
    by_cases he : e.id ∈ seen
    · rw [if_pos he]; exact ih seen
    · rw [if_neg he]
      simp only [List.map_cons, List.nodup_cons]
      refine ⟨?_, ih (e.id :: seen)⟩
      intro hmem
      obtain ⟨l, hl, hlid⟩ := List.mem_map.mp hmem
      exact dedupeAux_mem_not_seen rest (e.id :: seen) l hl
        (hlid ▸ List.mem_cons_self e.id seen)

theorem dedupeAux_of_nodup :
    ∀ (ls : List LogEntry) (seen : List String),
      (∀ l ∈ ls, l.id ∉ seen) → (ls.map (fun l => l.id)).Nodup →
      dedupeAux seen ls = ls := by
  intro ls
  induction ls with
  | nil => intro seen _ _; rfl
  | cons e rest ih =>
    intro seen h1 h2
    simp only [List.map_cons, List.nodup_cons] at h2
    simp only [dedupeAux, if_neg (h1 e (List.mem_cons_self _ _))]
    congr 1
    refine ih (e.id :: seen) ?_ h2.2
    intro l hl hmem
    rcases List.mem_cons.mp hmem with hid | hid
    · exact h2.1 (List.mem_map.mpr ⟨l, hl, hid⟩)
    · exact h1 l (List.mem_cons_of_mem _ hl) hid

/-- `dedupe` applied to a list with pairwise-distinct ids returns it
unchanged. -/
theorem dedupe_of_nodup (ls : List LogEntry)
    (h : (ls.map (fun l => l.id)).Nodup) : dedupe ls = ls :=
  dedupeAux_of_nodup ls [] (fun _ _ => List.not_mem_nil _) h

/-- C8: `dedupe` returns a sublist of the input (order preserved, nothing
added) whose ids are pairwise distinct, every kept entry is the first
occurrence of its id in the input, every input id is represented, and
`dedupe` is idempotent. -/
theorem claim_C8 (X : List LogEntry) :
    (dedupe X).Sublist X ∧
    ((dedupe X).map (fun l => l.id)).Nodup ∧
    (∀ l ∈ dedupe X, X.find? (fun e => e.id == l.id) = some l) ∧
    (∀ l ∈ X, ∃ l2 ∈ dedupe X, l2.id = l.id) ∧
    dedupe (dedupe X) = dedupe X := by
  refine ⟨dedupeAux_sublist X [], dedupeAux_id_nodup X [], dedupeAux_find X [], ?_, ?_⟩
  · intro l hl
    exact dedupeAux_complete X [] l hl (List.not_mem_nil _)
  · exact dedupeAux_of_nodup (dedupe X) []
      (fun _ _ => List.not_mem_nil _) (dedupeAux_id_nodup X [])

/-- An entry sharing `eSell`'s id but carrying different content. -/
def eSellDup : LogEntry :=
  { id := "L1", timestamp := ts0 + 60,
    details := { title := "Bazaar sell", category := "Item market" },
    data := { money_gained := some 7777 } }

/-- C8 witness: the dedup theorem applied to a concrete list with a
duplicated id — the first occurrence is the one found, and deduplication
is idempotent there. -/
theorem claim_C8_witness :
    [eSell, eSellDup, eBet].find? (fun e => e.id == eSell.id) = some eSell ∧
    dedupe (dedupe [eSell, eSellDup, eBet]) = dedupe [eSell, eSellDup, eBet] := by
  have h := claim_C8 [eSell, eSellDup, eBet]
  exact ⟨h.2.2.1 eSell (by decide), h.2.2.2.2⟩

/-!
### C10 — zero-amount entries never yield a bazaar trade
-/

theorem extractAmount_zero_or_pos (log : LogEntry) :
    extractAmount log = 0 ∨ 0 < extractAmount log := by
  rw [extractAmount_eq_firstPositive]
  exact firstPositive_eq_zero_or_pos _

/-- An entry with no recognized amount field. -/
def eNoAmount : LogEntry :=
  { id := "L7", timestamp := ts0 + 70,
    details := { title := "Bazaar sell", category := "Item market" },
    data := { items := [{ id := some 206, qty := some 2 }], buyer := some "5" } }

/-- The free-text purchase title of the spec's bazaar example. -/
def eBuyFree : LogEntry :=
  { id := "L8", timestamp := ts0 + 200,
    details := { title := "You bought Xanax x3 from Bob [42] for $3,000",
                 category := "Item market" },
    data := { cost_total := some 3000 } }

/-- C10: an entry whose extracted amount is 0 parses to `none` even when it
was detected as a bazaar transaction, and consequently every trade
`parseBazaarTransaction` returns has a strictly positive `totalAmount`. -/
theorem claim_C10 :
    (∀ (mapping : Nat → Option String) (log : LogEntry),
      extractAmount log = 0 → parseBazaarTransaction mapping log = none) ∧
    (∀ (mapping : Nat → Option String) (log : LogEntry) (t : BazaarTransactionInfo),
      parseBazaarTransaction mapping log = some t → 0 < t.totalAmount) := by
  constructor
  · intro mapping log h
    simp only [parseBazaarTransaction]
    rw [if_pos h]
  · intro mapping log t h
    rcases extractAmount_zero_or_pos log with h0 | h1
    · simp only [parseBazaarTransaction] at h
      rw [if_pos h0] at h
      exact absurd h (by simp)
    · have h0 : ¬ (extractAmount log = 0) := by omega
      simp only [parseBazaarTransaction] at h
      rw [if_neg h0] at h
      split at h
      · simp only [Option.some.injEq] at h; subst h; exact h1
      split at h
      · simp only [Option.some.injEq] at h; subst h; exact h1
      split at h
      · simp only [Option.some.injEq] at h; subst h; exact h1
      split at h
      · simp only [Option.some.injEq] at h; subst h; exact h1
      split at h
      · simp only [Option.some.injEq] at h; subst h; exact h1
      split at h
      · simp only [Option.some.injEq] at h; subst h; exact h1
      · exact absurd h (by simp)

/-- C10 witness: the theorem applied to a concrete amount-less bazaar title
and to the concrete parsed purchase. -/
theorem claim_C10_witness :
    parseBazaarTransaction mapping1 eNoAmount = none ∧
    0 < (BazaarTransactionInfo.mk "Xanax" 3 1000 3000 "Bob" (some "42") false
          (ts0 + 200) "You bought Xanax x3 from Bob [42] for $3,000").totalAmount :=
  ⟨claim_C10.1 mapping1 eNoAmount (by decide),
   claim_C10.2 mapping1 eBuyFree _ (by decide)⟩

/-!
### C9 — parsed trade quantities

The claim fails: `parseItemQuantity` maps an explicit `x0` suffix to
quantity 0 (`parseInt("0") = 0`), so a trade with quantity 0 is returned.
-/

/-- A free-text purchase whose item text carries an explicit `x0` suffix. -/
def eX0 : LogEntry :=
  { id := "L9", timestamp := ts0 + 300,
    details := { title := "You bought Xanax x0 from Bob [42] for $3,000",
                 category := "Item market" },
    data := { cost_total := some 3000 } }

/-- C9 (counterexample): the title "You bought Xanax x0 from Bob [42] for
$3,000" parses to a returned trade whose quantity is 0 — not a positive
integer, refuting "every returned trade has quantity at least 1". -/
theorem claim_C9_counterexample :
    (parseBazaarTransaction mapping1 eX0).map
        (fun t => (t.itemName, t.quantity)) = some ("Xanax", 0) := by
  decide

/-- C9 (amended): every returned trade takes its quantity either from the
structured `items[0].qty` (defaulted to 1 when absent or zero) or from
`parseItemQuantity` of the matched item text; `parseItemQuantity` returns
the suffix integer N for an `x<N>` suffix and 1 when there is no suffix;
hence the quantity is at least 1 in every case except an explicit
all-zero `x<N>` suffix or an explicitly negative structured qty. -/
theorem claim_C9_amended :
    (∀ (mapping : Nat → Option String) (log : LogEntry) (t : BazaarTransactionInfo),
      parseBazaarTransaction mapping log = some t →
      t.quantity = jsOr (log.data.items.head?.bind BItem.qty) 1 ∨
      ∃ part : List Char, t.itemName = (parseItemQuantity ⟨part⟩).1 ∧
        t.quantity = (parseItemQuantity ⟨part⟩).2) ∧
    (∀ s : String,
      (pqAux [] s.data = none → (parseItemQuantity s).2 = 1) ∧
      (∀ nm ds, pqAux [] s.data = some (nm, ds) →
        (parseItemQuantity s).2 = (digitsToNat ds : Int))) ∧
    (∀ s : String, 1 ≤ (parseItemQuantity s).2 ∨
      ∃ nm ds, pqAux [] s.data = some (nm, ds) ∧ digitsToNat ds = 0) ∧
    (∀ o : Option Int, 1 ≤ jsOr o 1 ∨ ∃ v, o = some v ∧ v < 0) := by
  refine ⟨?_, ?_, ?_, ?_⟩
  · intro mapping log t h
    rcases extractAmount_zero_or_pos log with h0 | h1
    · simp only [parseBazaarTransaction] at h
      rw [if_pos h0] at h
      exact absurd h (by simp)
    · have h0 : ¬ (extractAmount log = 0) := by omega
      simp only [parseBazaarTransaction] at h
      rw [if_neg h0] at h
      split at h
      · simp only [Option.some.injEq] at h; subst h; left; rfl
      split at h
      · simp only [Option.some.injEq] at h; subst h; left; rfl
      split at h
      · simp only [Option.some.injEq] at h
        subst h
        right
        rename_i itemPart playerName pid heq
        exact ⟨itemPart, rfl, rfl⟩
      split at h
      · simp only [Option.some.injEq] at h
        subst h
        right
        rename_i itemPart playerName pid heq
        exact ⟨itemPart, rfl, rfl⟩
      split at h
      · simp only [Option.some.injEq] at h
        subst h
        right
        rename_i playerName pid itemPart heq
        exact ⟨itemPart, rfl, rfl⟩
      split at h
      · simp only [Option.some.injEq] at h
        subst h
        right
        rename_i playerName pid itemPart heq
        exact ⟨itemPart, rfl, rfl⟩
      · exact absurd h (by simp)
  · intro s
    constructor
    · intro h
      simp [parseItemQuantity, h]
    · intro nm ds h
      simp [parseItemQuantity, h]
  · intro s
    rcases hpq : pqAux [] s.data with _ | ⟨nm, ds⟩
    · left
      simp [parseItemQuantity, hpq]
    · by_cases hz : digitsToNat ds = 0
      · right
        refine ⟨nm, ds, ?_, hz⟩
        first
        | exact hpq
        | rfl
      · left
        have h1 : 1 ≤ digitsToNat ds := Nat.one_le_iff_ne_zero.mpr hz
        simp only [parseItemQuantity, hpq]
        exact_mod_cast h1
  · intro o
    rcases o with _ | v
    · left; simp [jsOr]
    · by_cases hz : v = 0
      · left; simp [jsOr, hz]
      · rcases lt_trichotomy v 0 with hneg | hzero | hpos
        · right; exact ⟨v, rfl, hneg⟩
        · exact absurd hzero hz
        · left
          simp only [jsOr, if_neg hz]
          omega

/-- C9 witness: the quantity-characterization theorem applied to the
concrete `x0` purchase. -/
theorem claim_C9_witness :
    (BazaarTransactionInfo.mk "Xanax" 0 0 3000 "Bob" (some "42") false
        (ts0 + 300) "You bought Xanax x0 from Bob [42] for $3,000").quantity =
      jsOr (eX0.data.items.head?.bind BItem.qty) 1 ∨
    ∃ part : List Char,
      (BazaarTransactionInfo.mk "Xanax" 0 0 3000 "Bob" (some "42") false
        (ts0 + 300) "You bought Xanax x0 from Bob [42] for $3,000").itemName =
          (parseItemQuantity ⟨part⟩).1 ∧
      (BazaarTransactionInfo.mk "Xanax" 0 0 3000 "Bob" (some "42") false
        (ts0 + 300) "You bought Xanax x0 from Bob [42] for $3,000").quantity =
          (parseItemQuantity ⟨part⟩).2 :=
  claim_C9_amended.1 mapping1 eX0 _ (by decide)

/-!
### C6 — structured "Bazaar sell" parse
-/

/-- The spec's structured bazaar-sell example:
`{title: "Bazaar sell", data: {items: [{id: 206, qty: 5}], buyer: "99",
cost_each: 1000}}` with extracted amount 5000. -/
def eStructSell : LogEntry :=
  { id := "L10", timestamp := ts0 + 400,
    details := { title := "Bazaar sell", category := "Item market" },
    data := { money_gained := some 5000,
              items := [{ id := some 206, qty := some 5 }],
              buyer := some "99", cost_each := some 1000 } }

/-- Evaluation helper for the concrete structured example, kept separate so
the abstract `mapping` stays a parameter. -/
theorem parseStructSell_eval (mapping : Nat → Option String) :
    parseBazaarTransaction mapping eStructSell = some
      { itemName := getItemName mapping 206, quantity := 5, unitPrice := 1000,
        totalAmount := 5000, tradingPartner := "Player [99]", playerId := none,
        isSale := true, timestamp := ts0 + 400, originalTitle := "Bazaar sell" } := by
  rfl

/-- C6: for every entry whose title lower-cases to exactly "bazaar sell"
with a positive extracted amount, the parser returns a sale taking item id
and quantity from `data.items[0]` — the quantity being `items[0].qty`
defaulted to 1 (`qty || 1`) and so equal to 1 whenever no qty is
specified — itemName from resolving that id, tradingPartner
`Player [buyer]`, unitPrice from `data.cost_each` (falling back to the
extracted amount), and totalAmount equal to the extracted amount; in
particular the spec's concrete example yields quantity 5, unitPrice 1000,
totalAmount 5000, partner "Player [99]", a sale of resolve(206). -/
theorem claim_C6 :
    (∀ (mapping : Nat → Option String) (log : LogEntry) (item : BItem)
       (rest : List BItem) (i : Nat) (b : String),
      lowerL log.details.title.data = "bazaar sell".data →
      0 < extractAmount log →
      log.data.items = item :: rest →
      item.id = some i → i ≠ 0 →
      log.data.buyer = some b → b ≠ "" →
      parseBazaarTransaction mapping log = some
        { itemName := getItemName mapping i, quantity := jsOr item.qty 1,
          unitPrice := (jsOr log.data.cost_each (extractAmount log) : Rat),
          totalAmount := extractAmount log,
          tradingPartner := "Player [" ++ b ++ "]", playerId := none,
          isSale := true, timestamp := log.timestamp,
          originalTitle := log.details.title } ∧
      (item.qty = none → jsOr item.qty 1 = 1)) ∧
    (∀ mapping : Nat → Option String,
      parseBazaarTransaction mapping eStructSell = some
        { itemName := getItemName mapping 206, quantity := 5, unitPrice := 1000,
          totalAmount := 5000, tradingPartner := "Player [99]", playerId := none,
          isSale := true, timestamp := ts0 + 400, originalTitle := "Bazaar sell" }) := by
  constructor
  · intro mapping log item rest i b ht hpos hitems hid hi0 hbuyer hb0
    have h0 : ¬ (extractAmount log = 0) := by omega
    refine ⟨?_, ?_⟩
    · simp only [parseBazaarTransaction]
      rw [if_neg h0, if_pos ht]
      simp only [hitems, List.head?_cons, Option.some_bind, hid, hbuyer]
      rw [if_neg hi0, if_neg hb0]
    · intro hq
      rw [hq]
      rfl
  · intro mapping
    exact parseStructSell_eval mapping

/-- A structured "Bazaar sell" whose `items[0]` carries no qty field: the
claim's "quantity defaulting to 1" case. -/
def eStructSellNoQty : LogEntry :=
  { id := "L12", timestamp := ts0 + 450,
    details := { title := "Bazaar sell", category := "Item market" },
    data := { money_gained := some 2500,
              items := [{ id := some 206, qty := none }],
              buyer := some "77" } }

/-- C6 witness: the structured-parse theorem applied to the spec's concrete
example entry and to an entry with no `qty` field, whose quantity defaults
to 1. -/
theorem claim_C6_witness :
    parseBazaarTransaction mapping1 eStructSell = some
      { itemName := getItemName mapping1 206,
        quantity := jsOr (BItem.mk (some 206) (some 5)).qty 1,
        unitPrice := (jsOr eStructSell.data.cost_each (extractAmount eStructSell) : Rat),
        totalAmount := extractAmount eStructSell,
        tradingPartner := "Player [99]", playerId := none,
        isSale := true, timestamp := eStructSell.timestamp,
        originalTitle := eStructSell.details.title } ∧
    parseBazaarTransaction mapping1 eStructSellNoQty = some
      { itemName := getItemName mapping1 206,
        quantity := jsOr (BItem.mk (some 206) none).qty 1,
        unitPrice := (jsOr eStructSellNoQty.data.cost_each (extractAmount eStructSellNoQty) : Rat),
        totalAmount := extractAmount eStructSellNoQty,
        tradingPartner := "Player [77]", playerId := none,
        isSale := true, timestamp := eStructSellNoQty.timestamp,
        originalTitle := eStructSellNoQty.details.title } ∧
    jsOr (BItem.mk (some 206) none).qty 1 = 1 :=
  ⟨(claim_C6.1 mapping1 eStructSell ⟨some 206, some 5⟩ [] 206 "99"
      (by decide) (by decide) rfl rfl (by decide) rfl (by decide)).1,
   (claim_C6.1 mapping1 eStructSellNoQty ⟨some 206, none⟩ [] 206 "77"
      (by decide) (by decide) rfl rfl (by decide) rfl (by decide)).1,
   (claim_C6.1 mapping1 eStructSellNoQty ⟨some 206, none⟩ [] 206 "77"
      (by decide) (by decide) rfl rfl (by decide) rfl (by decide)).2 rfl⟩

/-!
### C7 — free-text "You bought …" parse
-/

/-- A successful `youMatch` consumes more than the leading literal, so the
matched title is strictly longer than `pre`. -/
theorem youMatch_length (pre mid : List Char) :
    ∀ (s : List Char) (r : List Char × List Char × List Char),
      youMatch pre mid s = some r → pre.length < s.length := by
  intro s
  induction s with
  | nil => intro r h; simp [youMatch] at h
  | cons c rest ih =>
    intro r h
    simp only [youMatch] at h
    by_cases hp : pre.isPrefixOf (c :: rest)
    · rw [if_pos hp] at h
      cases hg : g1You mid [] ((c :: rest).drop pre.length) with
      | none =>
        rw [hg] at h
        have := ih r h
        simp only [List.length_cons]
        omega
      | some r2 =>
        have hlen : pre.length ≤ (c :: rest).length :=
          (List.isPrefixOf_iff_prefix.mp hp).length_le
        by_cases he : (c :: rest).length ≤ pre.length
        · rw [List.drop_eq_nil_of_le he] at hg
          exact absurd hg (by simp [g1You])
        · omega
    · rw [if_neg hp] at h
      have := ih r h
      simp only [List.length_cons]
      omega

/-- C7: for every entry whose title matches the free-text shape
`You bought <item> from <name> [<id>] for $<amount>` with a positive
extracted amount, the parser returns a purchase whose item text is split by
`parseItemQuantity` into name and quantity (quantity 1 when no `x<N>`
suffix) and whose unitPrice is totalAmount divided by that quantity; in
particular the spec's concrete title yields itemName "Xanax", quantity 3,
unitPrice 1000, partner "Bob", playerId "42", not a sale. -/
theorem claim_C7 :
    (∀ (mapping : Nat → Option String) (log : LogEntry)
       (itemPart playerName pid : List Char),
      youMatch "You bought ".data " from ".data log.details.title.data =
        some (itemPart, playerName, pid) →
      0 < extractAmount log →
      parseBazaarTransaction mapping log = some
        { itemName := (parseItemQuantity ⟨itemPart⟩).1,
          quantity := (parseItemQuantity ⟨itemPart⟩).2,
          unitPrice := qdiv ((extractAmount log : Int) : Rat)
            (((parseItemQuantity ⟨itemPart⟩).2 : Int) : Rat),
          totalAmount := extractAmount log,
          tradingPartner := ⟨playerName⟩, playerId := some ⟨pid⟩,
          isSale := false, timestamp := log.timestamp,
          originalTitle := log.details.title } ∧
      qdiv ((extractAmount log : Int) : Rat)
          (((parseItemQuantity ⟨itemPart⟩).2 : Int) : Rat) =
        ((extractAmount log : Int) : Rat) /
          (((parseItemQuantity ⟨itemPart⟩).2 : Int) : Rat) ∧
      (pqAux [] itemPart = none → (parseItemQuantity ⟨itemPart⟩).2 = 1)) ∧
    parseBazaarTransaction mapping1 eBuyFree = some
      { itemName := "Xanax", quantity := 3, unitPrice := 1000,
        totalAmount := 3000, tradingPartner := "Bob", playerId := some "42",
        isSale := false, timestamp := ts0 + 200,
        originalTitle := "You bought Xanax x3 from Bob [42] for $3,000" } := by
  constructor
  · intro mapping log itemPart playerName pid hm hpos
    have h0 : ¬ (extractAmount log = 0) := by omega
    have hlen : ("You bought ".data).length < log.details.title.data.length :=
      youMatch_length _ _ _ _ hm
    have hlen11 : ("You bought ".data).length = 11 := by decide
    have hne1 : ¬ (lowerL log.details.title.data = "bazaar sell".data) := by
      intro he
      have h1 : (lowerL log.details.title.data).length = log.details.title.data.length := by
        simp [lowerL]
      rw [he] at h1
      have h2 : ("bazaar sell".data).length = 11 := by decide
      omega
    have hne2 : ¬ (lowerL log.details.title.data = "bazaar buy".data) := by
      intro he
      have h1 : (lowerL log.details.title.data).length = log.details.title.data.length := by
        simp [lowerL]
      rw [he] at h1
      have h2 : ("bazaar buy".data).length = 10 := by decide
      omega
    refine ⟨?_, qdiv_eq_div _ _, ?_⟩
    · simp only [parseBazaarTransaction]
      rw [if_neg h0, if_neg hne1, if_neg hne2, hm]
    · intro hq
      simp [parseItemQuantity, hq]
  · decide

/-- C7 witness: the free-text theorem applied to the spec's concrete
title "You bought Xanax x3 from Bob [42] for $3,000". -/
theorem claim_C7_witness :
    parseBazaarTransaction mapping1 eBuyFree = some
      { itemName := (parseItemQuantity ⟨"Xanax x3".data⟩).1,
        quantity := (parseItemQuantity ⟨"Xanax x3".data⟩).2,
        unitPrice := qdiv ((extractAmount eBuyFree : Int) : Rat)
          (((parseItemQuantity ⟨"Xanax x3".data⟩).2 : Int) : Rat),
        totalAmount := extractAmount eBuyFree,
        tradingPartner := ⟨"Bob".data⟩, playerId := some ⟨"42".data⟩,
        isSale := false, timestamp := eBuyFree.timestamp,
        originalTitle := eBuyFree.details.title } :=
  (claim_C7.1 mapping1 eBuyFree "Xanax x3".data "Bob".data "42".data
    (by decide) (by decide)).1

/-!
### C5 — day bucketing uses the UTC calendar date, not the local one

`processDailyProfits` derives the day key with
`new Date(ts * 1000).toISOString().split('T')[0]`, and `toISOString` is
specified to format in UTC; the spec's "local calendar date" only matches
in a UTC-configured runtime.
-/

/-- Modelled from the spec: the LOCAL calendar day of a timestamp claimed
by the spec's "date (YYYY-MM-DD, local calendar day derived from
timestamp)", for a runtime timezone `tzOffset` seconds east of UTC. -/
def specLocalDay (tzOffset : Int) (ts : Nat) : Int :=
  Int.fdiv ((ts : Int) + tzOffset) 86400

/-- An entry stamped at 00:00:00 LOCAL time of day 20000 in a UTC+2
runtime (22:00:00 UTC of day 19999). -/
def eMidnightLocal : LogEntry :=
  { id := "L11", timestamp := ts0 - 7200,
    details := { title := "Job pay", category := "Jobs" },
    data := { pay := some 100 } }

theorem alookup_aupdate_ne [DecidableEq κ] (k k2 : κ) (f : ν → ν) :
    ∀ l : List (κ × ν), k ≠ k2 → alookup k (aupdate k2 f l) = alookup k l := by
  intro l hk
  induction l with
  | nil => rfl
  | cons p rest ih =>
    simp only [aupdate]
    by_cases hp : p.1 = k2
    · rw [if_pos hp]
      simp only [alookup]
      rw [if_neg (by rw [hp]; exact fun he => hk he.symm),
          if_neg (by rw [hp]; exact fun he => hk he.symm)]
    · rw [if_neg hp]
      simp only [alookup]
      by_cases hp2 : p.1 = k
      · rw [if_pos hp2, if_pos hp2]
      · rw [if_neg hp2, if_neg hp2]
        exact ih

/-- C5 (counterexample): in a UTC+2 runtime, an entry stamped exactly at
00:00:00 local time of day 20000 is bucketed under UTC day 19999 — the
prior local day — contradicting "bucketed under the local calendar date". -/
theorem claim_C5_counterexample :
    specLocalDay 7200 eMidnightLocal.timestamp = 20000 ∧
    utcDay eMidnightLocal.timestamp = 19999 ∧
    (processDailyProfits mapping1 [eMidnightLocal] 2 20000).map
        (fun d => (d.date, d.income)) = [(19999, 100), (20000, 0)] := by
  refine ⟨by decide, by decide, by decide⟩

/-- The processing step only ever writes the bucket keyed by the UTC day
of the entry's timestamp. -/
theorem step_daily_other (mapping : Nat → Option String) (st : ProcState)
    (log : LogEntry) (k : Int) (hk : k ≠ utcDay log.timestamp) :
    alookup k (step mapping st log).daily = alookup k st.daily := by
  simp only [step]
  split
  · split
    · rfl
    · split
      · exact alookup_aupdate_ne k (utcDay log.timestamp) _ st.daily hk
      · rfl
  · rfl

/-- C5 (amended): every entry is bucketed under the UTC calendar day of
its timestamp (`toISOString` formats in UTC): the processing step leaves
every other day bucket untouched, and an entry stamped exactly at
00:00:00 UTC of day `d` has day key `d`, not the prior day's. -/
theorem claim_C5_amended :
    (∀ (mapping : Nat → Option String) (st : ProcState) (log : LogEntry) (k : Int),
      k ≠ utcDay log.timestamp →
      alookup k (step mapping st log).daily = alookup k st.daily) ∧
    (∀ d : Nat, utcDay (86400 * d) = (d : Int)) := by
  constructor
  · exact step_daily_other
  · intro d
    simp only [utcDay]
    rw [Nat.mul_div_cancel_left d (by norm_num)]

/-- C5 witness: the bucket-locality theorem applied to the concrete bazaar
sale (UTC day 20000) and the yesterday bucket 19999, plus the concrete
midnight boundary of day 20000. -/
theorem claim_C5_witness :
    alookup (19999 : Int)
        (step mapping1 { daily := initDaily 2 20000, bazaar := [] } eSell).daily =
      alookup (19999 : Int) (initDaily 2 20000) ∧
    utcDay (86400 * 20000) = (20000 : Int) :=
  ⟨claim_C5_amended.1 mapping1 { daily := initDaily 2 20000, bazaar := [] } eSell
      19999 (by decide),
   claim_C5_amended.2 20000⟩

/-!
### C4 — order-(in)dependence of deduplication plus aggregation
-/

theorem insertBy_perm (le : α → α → Bool) (a : α) :
    ∀ l : List α, (insertBy le a l).Perm (a :: l) := by
  intro l
  induction l with
  | nil => exact List.Perm.refl _
  | cons b bs ih =>
    simp only [insertBy]
    split
    · exact List.Perm.refl _
    · exact (ih.cons b).trans (List.Perm.swap a b bs)

theorem sortBy_perm (le : α → α → Bool) : ∀ l : List α, (sortBy le l).Perm l := by
  intro l
  induction l with
  | nil => exact List.Perm.refl _
  | cons a as ih =>
    exact (insertBy_perm le a (sortBy le as)).trans (ih.cons a)

theorem alookup_aupdate_self [DecidableEq κ] (k : κ) (f : ν → ν) :
    ∀ l : List (κ × ν), alookup k (aupdate k f l) = (alookup k l).map f := by
  intro l
  induction l with
  | nil => rfl
  | cons p rest ih =>
    simp only [aupdate]
    by_cases hp : p.1 = k
    · rw [if_pos hp]
      simp only [alookup, if_pos hp]
      rfl
    · rw [if_neg hp]
      simp only [alookup, if_neg hp]
      exact ih

theorem hasA_aupdate [DecidableEq κ] (k k2 : κ) (f : ν → ν) (l : List (κ × ν)) :
    hasA k (aupdate k2 f l) = hasA k l := by
  by_cases h : k = k2
  · subst h
    simp [hasA, alookup_aupdate_self]
  · simp [hasA, alookup_aupdate_ne k k2 f l h]

/-- The processing step never creates or deletes day buckets. -/
theorem step_hasA (mapping : Nat → Option String) (st : ProcState)
    (log : LogEntry) (k : Int) :
    hasA k (step mapping st log).daily = hasA k st.daily := by
  simp only [step]
  split
  · split
    · rfl
    · split
      · exact hasA_aupdate k (utcDay log.timestamp) _ st.daily
      · rfl
  · rfl

/-- What one entry adds to the income total of the bucket keyed `k`:
its extracted amount when it lands in that bucket, is not neutral, has a
positive amount, is not a piggy-bank deposit, and classifies as income. -/
def incContrib (k : Int) (log : LogEntry) : Int :=
  if utcDay log.timestamp = k ∧ isNeutralTransaction log = false ∧
     0 < extractAmount log ∧
     inclL (lowerL log.details.title.data) "piggy bank deposit" = false ∧
     isIncomeTransaction log = true
  then extractAmount log else 0

/-- What one entry adds to the expense total of the bucket keyed `k`. -/
def expContrib (k : Int) (log : LogEntry) : Int :=
  if utcDay log.timestamp = k ∧ isNeutralTransaction log = false ∧
     0 < extractAmount log ∧
     inclL (lowerL log.details.title.data) "piggy bank deposit" = false ∧
     isIncomeTransaction log = false
  then extractAmount log else 0

theorem step_income (mapping : Nat → Option String) (st : ProcState)
    (log : LogEntry) (k : Int) (hk : hasA k st.daily = true) :
    ((alookup k (step mapping st log).daily).getD emptyDay).income =
      ((alookup k st.daily).getD emptyDay).income + incContrib k log := by
  by_cases hday : utcDay log.timestamp = k
  case neg =>
    rw [step_daily_other mapping st log k (fun he => hday he.symm)]
    simp [incContrib, hday]
  case pos =>
    subst hday
    simp only [step]
    rw [if_pos hk]
    cases hneut : isNeutralTransaction log with
    | true =>
      rw [if_pos rfl]
      simp [incContrib, hneut]
    | false =>
      rw [if_neg (by simp)]
      by_cases hamt : 0 < extractAmount log
      case neg =>
        rw [if_neg hamt]
        simp [incContrib, hamt]
      case pos =>
        rw [if_pos hamt]
        simp only [alookup_aupdate_self]
        obtain ⟨day, hdayv⟩ := Option.isSome_iff_exists.mp hk
        rw [hdayv]
        simp only [Option.map_some', Option.getD_some]
        cases hpiggy : inclL (lowerL log.details.title.data) "piggy bank deposit" with
        | true =>
          rw [if_pos rfl]
          simp [incContrib, hneut, hamt, hpiggy]
        | false =>
          rw [if_neg (by simp)]
          cases hinc : isIncomeTransaction log with
          | true =>
            rw [if_pos rfl]
            simp [incContrib, hneut, hamt, hpiggy, hinc]
          | false =>
            rw [if_neg (by simp)]
            simp [incContrib, hneut, hamt, hpiggy, hinc]

theorem step_expenses (mapping : Nat → Option String) (st : ProcState)
    (log : LogEntry) (k : Int) (hk : hasA k st.daily = true) :
    ((alookup k (step mapping st log).daily).getD emptyDay).expenses =
      ((alookup k st.daily).getD emptyDay).expenses + expContrib k log := by
  by_cases hday : utcDay log.timestamp = k
  case neg =>
    rw [step_daily_other mapping st log k (fun he => hday he.symm)]
    simp [expContrib, hday]
  case pos =>
    subst hday
    simp only [step]
    rw [if_pos hk]
    cases hneut : isNeutralTransaction log with
    | true =>
      rw [if_pos rfl]
      simp [expContrib, hneut]
    | false =>
      rw [if_neg (by simp)]
      by_cases hamt : 0 < extractAmount log
      case neg =>
        rw [if_neg hamt]
        simp [expContrib, hamt]
      case pos =>
        rw [if_pos hamt]
        simp only [alookup_aupdate_self]
        obtain ⟨day, hdayv⟩ := Option.isSome_iff_exists.mp hk
        rw [hdayv]
        simp only [Option.map_some', Option.getD_some]
        cases hpiggy : inclL (lowerL log.details.title.data) "piggy bank deposit" with
        | true =>
          rw [if_pos rfl]
          simp [expContrib, hneut, hamt, hpiggy]
        | false =>
          rw [if_neg (by simp)]
          cases hinc : isIncomeTransaction log with
          | true =>
            rw [if_pos rfl]
            simp [expContrib, hneut, hamt, hpiggy, hinc]
          | false =>
            rw [if_neg (by simp)]
            simp [expContrib, hneut, hamt, hpiggy, hinc]

theorem foldl_income (mapping : Nat → Option String) (k : Int) :
    ∀ (L : List LogEntry) (st : ProcState), hasA k st.daily = true →
      ((alookup k (L.foldl (step mapping) st).daily).getD emptyDay).income =
        ((alookup k st.daily).getD emptyDay).income + (L.map (incContrib k)).sum := by
  intro L
  induction L with
  | nil => intro st _; simp
  | cons l rest ih =>
    intro st hst
    simp only [List.foldl_cons, List.map_cons, List.sum_cons]
    rw [ih (step mapping st l) (by rw [step_hasA]; exact hst)]
    rw [step_income mapping st l k hst]
    ring

theorem foldl_expenses (mapping : Nat → Option String) (k : Int) :
    ∀ (L : List LogEntry) (st : ProcState), hasA k st.daily = true →
      ((alookup k (L.foldl (step mapping) st).daily).getD emptyDay).expenses =
        ((alookup k st.daily).getD emptyDay).expenses + (L.map (expContrib k)).sum := by
  intro L
  induction L with
  | nil => intro st _; simp
  | cons l rest ih =>
    intro st hst
    simp only [List.foldl_cons, List.map_cons, List.sum_cons]
    rw [ih (step mapping st l) (by rw [step_hasA]; exact hst)]
    rw [step_expenses mapping st l k hst]
    ring

theorem alookup_append [DecidableEq κ] (k : κ) :
    ∀ l1 l2 : List (κ × ν), alookup k (l1 ++ l2) =
      match alookup k l1 with
      | some v => some v
      | none => alookup k l2 := by
  intro l1 l2
  induction l1 with
  | nil => rfl
  | cons p rest ih =>
    simp only [List.cons_append, alookup]
    by_cases hp : p.1 = k
    · rw [if_pos hp, if_pos hp]
    · rw [if_neg hp, if_neg hp]
      exact ih

theorem alookup_initDaily_none (today : Int) :
    ∀ (days : Nat) (k : Int), (∀ j : Nat, j < days → k ≠ today - (j : Int)) →
      alookup k (initDaily days today) = none := by
  intro days
  induction days with
  | zero => intro k _; rfl
  | succ n ih =>
    intro k hk
    simp only [initDaily, List.range_succ, List.map_append, List.map_cons, List.map_nil]
    rw [alookup_append]
    rw [show ((List.range n).map fun (i : Nat) => (today - (i : Int), emptyDay)) =
          initDaily n today from rfl]
    rw [ih k (fun j hj => hk j (Nat.lt_succ_of_lt hj))]
    simp only [alookup]
    rw [if_neg (fun he => hk n (Nat.lt_succ_self n) he.symm)]

theorem alookup_initDaily (today : Int) :
    ∀ (days : Nat) (i : Nat), i < days →
      alookup (today - (i : Int)) (initDaily days today) = some emptyDay := by
  intro days
  induction days with
  | zero => intro i hi; exact absurd hi (Nat.not_lt_zero i)
  | succ n ih =>
    intro i hi
    simp only [initDaily, List.range_succ, List.map_append, List.map_cons, List.map_nil]
    rw [alookup_append]
    rw [show ((List.range n).map fun (j : Nat) => (today - (j : Int), emptyDay)) =
          initDaily n today from rfl]
    by_cases hin : i < n
    · rw [ih i hin]
    · have hieq : i = n := by omega
      subst hieq
      rw [alookup_initDaily_none today i (today - (i : Int)) (fun j hj => by
        intro he
        have hij : (i : Int) = (j : Int) := by omega
        have hij2 : i = j := by exact_mod_cast hij
        omega)]
      simp [alookup]

/-- The per-day (date, income, expenses, netProfit) quadruples produced by
`processDailyProfits` are invariant under permutation of the entry list. -/
theorem processDailyProfits_proj_perm (mapping : Nat → Option String)
    (days : Nat) (today : Int) (L1 L2 : List LogEntry) (h : L1.Perm L2) :
    (processDailyProfits mapping L1 days today).map
        (fun d => (d.date, d.income, d.expenses, d.netProfit)) =
      (processDailyProfits mapping L2 days today).map
        (fun d => (d.date, d.income, d.expenses, d.netProfit)) := by
  simp only [processDailyProfits]
  rw [List.map_reverse, List.map_reverse]
  congr 1
  rw [List.map_map, List.map_map]
  apply List.map_congr_left
  intro i hi
  have hlt : i < days := List.mem_range.mp hi
  have hinit : alookup (today - (i : Int)) (initDaily days today) = some emptyDay :=
    alookup_initDaily today days i hlt
  have hhas : hasA (today - (i : Int)) (initDaily days today) = true := by
    simp [hasA, hinit]
  have hIncEq :
      ((alookup (today - (i : Int))
          (L1.foldl (step mapping) ⟨initDaily days today, []⟩).daily).getD emptyDay).income =
        ((alookup (today - (i : Int))
          (L2.foldl (step mapping) ⟨initDaily days today, []⟩).daily).getD emptyDay).income := by
    rw [foldl_income mapping (today - (i : Int)) L1 ⟨initDaily days today, []⟩ hhas,
        foldl_income mapping (today - (i : Int)) L2 ⟨initDaily days today, []⟩ hhas]
    congr 1
    exact (h.map (incContrib (today - (i : Int)))).sum_eq
  have hExpEq :
      ((alookup (today - (i : Int))
          (L1.foldl (step mapping) ⟨initDaily days today, []⟩).daily).getD emptyDay).expenses =
        ((alookup (today - (i : Int))
          (L2.foldl (step mapping) ⟨initDaily days today, []⟩).daily).getD emptyDay).expenses := by
    rw [foldl_expenses mapping (today - (i : Int)) L1 ⟨initDaily days today, []⟩ hhas,
        foldl_expenses mapping (today - (i : Int)) L2 ⟨initDaily days today, []⟩ hhas]
    congr 1
    exact (h.map (expContrib (today - (i : Int)))).sum_eq
  simp only [Function.comp]
  rw [hIncEq, hExpEq]

/-- C4 (amended): for entry lists with pairwise-distinct ids, permuting the
input before deduplication + aggregation leaves every day's date, income,
expenses and netProfit unchanged. -/
theorem claim_C4_amended (mapping : Nat → Option String) (days : Nat) (today : Int)
    (X Y : List LogEntry) (hperm : X.Perm Y)
    (hnodup : (X.map (fun l => l.id)).Nodup) :
    (analyzeCore mapping X days today).map
        (fun d => (d.date, d.income, d.expenses, d.netProfit)) =
      (analyzeCore mapping Y days today).map
        (fun d => (d.date, d.income, d.expenses, d.netProfit)) := by
  have hnodupY : (Y.map (fun l => l.id)).Nodup :=
    ((hperm.map (fun l => l.id)).nodup_iff).mp hnodup
  unfold analyzeCore
  rw [dedupe_of_nodup X hnodup, dedupe_of_nodup Y hnodupY]
  apply processDailyProfits_proj_perm
  exact ((sortBy_perm _ X).trans hperm).trans (sortBy_perm _ Y).symm

/-- First of two entries sharing the id "D1" (amount 100). -/
def dupA : LogEntry :=
  { id := "D1", timestamp := ts0 + 500,
    details := { title := "Job pay", category := "Jobs" },
    data := { pay := some 100 } }

/-- Second entry with id "D1" but different content (amount 200). -/
def dupB : LogEntry :=
  { id := "D1", timestamp := ts0 + 500,
    details := { title := "Job pay", category := "Jobs" },
    data := { pay := some 200 } }

/-- Distinct-id entry, title "Job pay", category "CatA". -/
def catA : LogEntry :=
  { id := "K1", timestamp := ts0 + 600,
    details := { title := "Job pay", category := "CatA" },
    data := { pay := some 100 } }

/-- Distinct-id entry, same title and timestamp as `catA` but category
"CatB". -/
def catB : LogEntry :=
  { id := "K2", timestamp := ts0 + 600,
    details := { title := "Job pay", category := "CatB" },
    data := { pay := some 100 } }

/-- C4 (counterexample): permuting the input changes the output.  With a
duplicated id the kept representative (hence the day's income) changes;
and even with pairwise-distinct ids, two same-titled entries of different
categories produce a day transaction summary whose `type` field depends on
processing order, so the full `DailyProfit[]` (including each day's
transactions list) is NOT permutation-invariant. -/
theorem claim_C4_counterexample :
    analyzeCore mapping1 [dupA, dupB] 1 20000 ≠
      analyzeCore mapping1 [dupB, dupA] 1 20000 ∧
    (analyzeCore mapping1 [catA, catB] 1 20000).map (fun d => d.transactions) ≠
      (analyzeCore mapping1 [catB, catA] 1 20000).map (fun d => d.transactions) := by
  refine ⟨by decide, by decide⟩

/-- C4 witness: the permutation-invariance theorem applied to the concrete
two-entry day, swapped. -/
theorem claim_C4_witness :
    (analyzeCore mapping1 [eSell, eBet] 1 20000).map
        (fun d => (d.date, d.income, d.expenses, d.netProfit)) =
      (analyzeCore mapping1 [eBet, eSell] 1 20000).map
        (fun d => (d.date, d.income, d.expenses, d.netProfit)) :=
  claim_C4_amended mapping1 1 20000 [eSell, eBet] [eBet, eSell]
    (List.Perm.swap eBet eSell []) (by decide)

end TornHelper
